import Mathlib

/-
  Verification of the merton-share portfolio application.

  The repository ships a React/TypeScript frontend (store, pages, API client,
  type declarations) together with documentation of a FastAPI backend whose
  Python sources (merton_share.py and the optimize / gap-analysis / allocate /
  rebalance routes) are not part of the checked-in tree.  Frontend logic is
  embedded directly from the TypeScript sources; the backend computations are
  modelled from the specification, as marked on each such definition.

  All machine arithmetic is embedded over ℚ.
-/

/- ## Shared data model (frontend/src/types) -/

/-- Institutional stance attached to an asset class
    (frontend/src/types, InstitutionalView.stance). -/
inductive Stance
  | overweight
  | neutral
  | underweight
deriving DecidableEq, Repr

/-- Valuation signal attached to an asset class
    (frontend/src/types, GapAnalysisRow.valuationSignal). -/
inductive ValSignal
  | favorable
  | neutral
  | cautious
deriving DecidableEq, Repr

/-- Allocation maps sent over the API (`Record<string, number>`, values in
    percent) are embedded as association lists from asset-class tags to
    percentages. -/
abbrev AllocMap := List (String × ℚ)

/-- Lookup in an allocation map, defaulting an absent key to 0. -/
def lookupOr0 (m : AllocMap) (k : String) : ℚ :=
  match m.lookup k with
  | some v => v
  | none => 0

/-- Keys present in either of two allocation maps (each key once). -/
def unionKeys (current target : AllocMap) : List String :=
  (current.map Prod.fst ++ target.map Prod.fst).dedup

/- ## Workflow store (frontend/src/store, zustand) -/

/-- Workflow steps of the 5-step flow (frontend/src/types, `WorkflowStep`). -/
inductive WorkflowStep
  | bonds
  | portfolio
  | riskProfile
  | marketData
  | results
deriving DecidableEq, Repr

/-- The slice of the zustand store state that `markStepComplete` can read or
    write, plus a representative persisted scalar field
    (frontend/src/store, `AppState`). -/
structure AppState where
  completedSteps : List WorkflowStep
  contributionAmount : ℚ
deriving DecidableEq, Repr

/-- Initial store state (frontend/src/store, `initialState`):
    `completedSteps: []`, `contributionAmount: 1000`. -/
def initialAppState : AppState :=
  { completedSteps := [], contributionAmount := 1000 }

/-- Embeds `markStepComplete` from frontend/src/store:
    `completedSteps: state.completedSteps.includes(step)
       ? state.completedSteps : [...state.completedSteps, step]`,
    with JavaScript `includes` embedded as list membership. -/
def markStepComplete (step : WorkflowStep) (s : AppState) : AppState :=
  { s with
    completedSteps :=
      if step ∈ s.completedSteps then s.completedSteps
      else s.completedSteps ++ [step] }

/- ## Portfolio submission (frontend/src/pages/PortfolioEntryPage.tsx) -/

/-- The fields of an ETF holding used by `handleSubmit`; the remaining fields
    of `ETFHolding` (isin, name, region, ter, flags) are carried through the
    object spread unchanged and are inert for the recomputation. -/
structure Holding where
  ticker : String
  valueEur : ℚ
  percentage : ℚ
deriving DecidableEq, Repr

/-- Embeds `const totalValue = holdings.reduce((sum, h) => sum + h.valueEur, 0)`
    from `handleSubmit` in PortfolioEntryPage.tsx. -/
def totalValueOf (holdings : List Holding) : ℚ :=
  (holdings.map Holding.valueEur).sum

/-- Embeds the percentage recomputation of `handleSubmit`
    (PortfolioEntryPage.tsx): every holding gets
    `percentage: totalValue > 0 ? (h.valueEur / totalValue) * 100 : 0`, and the
    page stores the updated holdings with `totalValueEur = totalValue`. -/
def submitPortfolio (holdings : List Holding) : List Holding × ℚ :=
  let totalValue := totalValueOf holdings
  (holdings.map fun h =>
    { h with percentage := if 0 < totalValue then h.valueEur / totalValue * 100 else 0 },
   totalValue)

/- ## Bonds versus risky summary (unnamed ResultsPage source, lines 286-317) -/

/-- Embeds `const targetRiskyPct = crra ? Math.min(100, (1 / crra) * 100) : 50`
    from the ResultsPage portfolio summary; a falsy (zero) CRRA takes the
    50-percent default branch. -/
def targetRiskyPct (crra : ℚ) : ℚ :=
  if crra = 0 then 50 else min 100 (1 / crra * 100)

/-- Embeds `const targetBondsPct = 100 - targetRiskyPct` (ResultsPage). -/
def targetBondsPct (crra : ℚ) : ℚ :=
  100 - targetRiskyPct crra

/-- Embeds `const bondsEur = bondPosition ? bondPosition.amountPln / eurPlnRate : 0`
    (ResultsPage). -/
def bondsEurValue (bondAmountPln : Option ℚ) (eurPlnRate : ℚ) : ℚ :=
  match bondAmountPln with
  | some pln => pln / eurPlnRate
  | none => 0

/-- Embeds `const currentBondsPct = totalPortfolio > 0 ? (bondsEur / totalPortfolio) * 100 : 0`
    (ResultsPage), where `totalPortfolio = bondsEur + etfValue`. -/
def currentBondsPct (bondsEur etfValue : ℚ) : ℚ :=
  if 0 < bondsEur + etfValue then bondsEur / (bondsEur + etfValue) * 100 else 0

/-- Embeds `const currentRiskyPct = totalPortfolio > 0 ? (etfValue / totalPortfolio) * 100 : 0`
    (ResultsPage). -/
def currentRiskyPct (bondsEur etfValue : ℚ) : ℚ :=
  if 0 < bondsEur + etfValue then etfValue / (bondsEur + etfValue) * 100 else 0

/-- Embeds `const bondsGap = targetBondsPct - currentBondsPct` (ResultsPage). -/
def bondsGap (crra bondsEur etfValue : ℚ) : ℚ :=
  targetBondsPct crra - currentBondsPct bondsEur etfValue

/-- Embeds `const riskyGap = targetRiskyPct - currentRiskyPct` (ResultsPage). -/
def riskyGap (crra bondsEur etfValue : ℚ) : ℚ :=
  targetRiskyPct crra - currentRiskyPct bondsEur etfValue

/- ## Optimizer and statistics (backend merton_share.py, absent from src) -/

/-- Modelled from the spec: `portfolioReturn = μᵗw` (StatisticsEngine, spec
    4.3); the backend StatisticsEngine source is missing from src. -/
def portfolioReturn (n : ℕ) (mu w : Fin n → ℚ) : ℚ :=
  ∑ i, mu i * w i

/-- Modelled from the spec: `portfolioVariance = wᵗΣw` (StatisticsEngine, spec
    4.3); the backend StatisticsEngine source is missing from src. -/
def portfolioVariance (n : ℕ) (cov : Fin n → Fin n → ℚ) (w : Fin n → ℚ) : ℚ :=
  ∑ i, ∑ j, w i * cov i j * w j

/-- Modelled from the spec: the optimizer objective `μᵗw - (γ/2)·wᵗΣw`
    (spec 4.2); the backend Optimizer source is missing from src. -/
def objectiveFn (n : ℕ) (mu : Fin n → ℚ) (cov : Fin n → Fin n → ℚ)
    (gamma : ℚ) (w : Fin n → ℚ) : ℚ :=
  portfolioReturn n mu w - gamma / 2 * portfolioVariance n cov w

/-- Modelled from the spec: the optimizer constraint set
    `Σᵢwᵢ = 1, 0 ≤ wᵢ ≤ wMax` (spec 4.2); the backend Optimizer source is
    missing from src. -/
def FeasibleWeights (n : ℕ) (wMax : ℚ) (w : Fin n → ℚ) : Prop :=
  (∑ i, w i) = 1 ∧ ∀ i, 0 ≤ w i ∧ w i ≤ wMax

/-- Modelled from the spec: the contract of the converged optimizer output —
    a feasible point maximising the objective over the feasible set ("it must
    converge to the global optimum given convexity", spec 4.2); the backend
    Optimizer source is missing from src. -/
def IsOptimalWeights (n : ℕ) (mu : Fin n → ℚ) (cov : Fin n → Fin n → ℚ)
    (gamma wMax : ℚ) (w : Fin n → ℚ) : Prop :=
  FeasibleWeights n wMax w ∧
    ∀ v, FeasibleWeights n wMax v →
      objectiveFn n mu cov gamma v ≤ objectiveFn n mu cov gamma w

/-- The equal-weight portfolio used as the spec's test oracle (spec 4.2). -/
def equalWeights (n : ℕ) : Fin n → ℚ :=
  fun _ => 1 / n

/-- Sharpe ratio outcome: either the sentinel for zero volatility or a finite
    value (spec 4.3 guard). -/
inductive SharpeResult
  | undefined
  | value (x : ℚ)
deriving DecidableEq, Repr

/-- Modelled from the spec: `Sharpe = (portfolioReturn - riskFreeRate) /
    portfolioVolatility`, guarded against zero volatility by the sentinel
    (spec 4.3); the backend StatisticsEngine source is missing from src. -/
def computeSharpe (ret riskFree vol : ℚ) : SharpeResult :=
  if vol = 0 then SharpeResult.undefined
  else SharpeResult.value ((ret - riskFree) / vol)

/- ## Gap analysis (backend optimize/gap-analysis route, absent from src) -/

/-- Priority tag attached to a gap row
    (frontend/src/types, GapAnalysisRow.priority). -/
inductive Priority
  | high
  | medium
  | consider
  | hold
  | skip
deriving DecidableEq, Repr

/-- Modelled from the spec: the ordered, first-match priority rules of the
    GapAnalyzer (spec 4.4); the backend GapAnalyzer source is missing from
    src.  Gaps are in percentage points. -/
def assignPriority (gap : ℚ) (val : Option ValSignal) (inst : Option Stance) : Priority :=
  if 10 < gap then Priority.high
  else if 3 < gap then Priority.medium
  else if 0 < gap ∧ (val = some ValSignal.favorable ∨ inst = some Stance.overweight) then
    Priority.consider
  else if |gap| ≤ 3 then Priority.hold
  else Priority.skip

/-- One gap-analysis row (frontend/src/types, `GapAnalysisRow`). -/
structure GapRow where
  ticker : String
  currentPct : ℚ
  targetPct : ℚ
  gap : ℚ
  priority : Priority
  valuationSignal : Option ValSignal
  institutionalStance : Option Stance
deriving DecidableEq, Repr

/-- Modelled from the spec: the GapAnalyzer builds one row per asset-class key
    present in either map, defaulting absent entries to 0, with
    `gap = target - current` and the first-match priority rules (spec 4.4);
    the backend GapAnalyzer source is missing from src.  The spec's stable
    presentation re-ordering of the returned rows does not change the row
    contents and is not modelled. -/
def gapAnalysis (current target : AllocMap)
    (vals : List (String × ValSignal)) (insts : List (String × Stance)) : List GapRow :=
  (unionKeys current target).map fun k =>
    let c := lookupOr0 current k
    let t := lookupOr0 target k
    { ticker := k
      currentPct := c
      targetPct := t
      gap := t - c
      priority := assignPriority (t - c) (vals.lookup k) (insts.lookup k)
      valuationSignal := vals.lookup k
      institutionalStance := insts.lookup k }

/- ## Contribution allocator (backend optimize/allocate route, absent from src) -/

/-- Rank of a priority tier for the allocator ordering (high before medium
    before consider, spec 4.5). -/
def priorityRank : Priority → ℕ
  | Priority.high => 0
  | Priority.medium => 1
  | Priority.consider => 2
  | Priority.hold => 3
  | Priority.skip => 4

/-- Ordering of eligible rows: by priority tier, then by gap magnitude
    descending within a tier (spec 4.5 step 1). -/
def allocOrder (a b : GapRow) : Prop :=
  priorityRank a.priority < priorityRank b.priority ∨
    (priorityRank a.priority = priorityRank b.priority ∧ b.gap ≤ a.gap)

instance : DecidableRel allocOrder := fun a b => by
  unfold allocOrder; infer_instance

/-- Modelled from the spec: the allocator considers only rows with positive
    gap, ordered by priority then gap magnitude (spec 4.5 step 1); the backend
    ContributionAllocator source is missing from src. -/
def eligibleRows (rows : List GapRow) : List GapRow :=
  (rows.filter fun r => 0 < r.gap).insertionSort allocOrder

/-- Modelled from the spec: the sum of gaps across all eligible rows, the
    denominator of the single-pass proportional split (spec 4.5 step 2). -/
def totalGapOf (rows : List GapRow) : ℚ :=
  ((eligibleRows rows).map GapRow.gap).sum

/-- One allocation recommendation (frontend/src/types,
    `AllocationRecommendation`). -/
structure AllocRec where
  ticker : String
  amountEur : ℚ
  percentageOfContribution : ℚ
  rationale : String
deriving DecidableEq, Repr

/-- Result of the allocate call: recommendations plus the unallocated
    remainder (spec 6, `allocate`). -/
structure AllocResult where
  recommendations : List AllocRec
  unallocated : ℚ
deriving DecidableEq, Repr

/-- Modelled from the spec: the ContributionAllocator greedy waterfall
    (spec 4.5); the backend source is missing from src.  Each eligible row's
    uncapped proportional amount is `gap / totalGap * contribution`, applied
    once; a proposed amount below the minimum threshold is zeroed and returned
    to the unallocated pool, which is not re-distributed in this pass; with no
    eligible row, the full amount is unallocated.  The post-allocation preview
    (step 5) is display arithmetic and is not modelled. -/
def allocate (contributionAmount _currentPortfolioValue minAllocation : ℚ)
    (rows : List GapRow) : AllocResult :=
  let eligible := eligibleRows rows
  let totalGap := totalGapOf rows
  if eligible.isEmpty then
    { recommendations := [], unallocated := contributionAmount }
  else
    { recommendations := eligible.map fun r =>
        let proposed := r.gap / totalGap * contributionAmount
        let amount := if proposed < minAllocation then 0 else proposed
        { ticker := r.ticker
          amountEur := amount
          percentageOfContribution := amount / contributionAmount * 100
          rationale := "underweight versus target allocation" }
      unallocated := (eligible.map fun r =>
        let proposed := r.gap / totalGap * contributionAmount
        if proposed < minAllocation then proposed else 0).sum }

/- ## Rebalance check (backend optimize/rebalance route, absent from src) -/

/-- Result of the rebalance check (frontend/src/types, `RebalanceCheck`);
    the rationale and tax-note strings are fixed text and are not modelled. -/
structure RebalanceResult where
  isRebalanceRecommended : Bool
  maxDeviation : ℚ
  overweightPositions : List String
  underweightPositions : List String
deriving DecidableEq, Repr

/-- Signed drift of an asset class: current minus target percentage. -/
def deviation (current target : AllocMap) (k : String) : ℚ :=
  lookupOr0 current k - lookupOr0 target k

/-- Modelled from the spec: the RebalanceChecker (spec 4.6) — a rebalance is
    recommended iff some asset class drifts strictly above the threshold;
    `maxDeviation` is the maximum absolute drift over all rows, underweight
    ones included; the backend source is missing from src. -/
def rebalanceCheck (current target : AllocMap) (threshold : ℚ) : RebalanceResult :=
  let keys := unionKeys current target
  let over := keys.filter fun k => threshold < deviation current target k
  { isRebalanceRecommended := !over.isEmpty
    maxDeviation := (keys.map fun k => |deviation current target k|).foldr max 0
    overweightPositions := over
    underweightPositions := keys.filter fun k => deviation current target k < -threshold }

/- ## Input adjuster / view blending (backend, absent from src) -/

/-- Modelled from the spec: the institutional-stance adjustment of the
    InputAdjuster — overweight +1.0pp, underweight -1.0pp, neutral or absent 0
    (spec 4.1, returns in decimals); the backend source is missing from src. -/
def institutionalViewAdjustment : Option Stance → ℚ
  | some Stance.overweight => 1 / 100
  | some Stance.underweight => -(1 / 100)
  | _ => 0

/-- Modelled from the spec: the valuation-signal adjustment of the
    InputAdjuster — favorable +0.5pp, cautious -1.0pp, neutral or absent 0
    (spec 4.1); the backend source is missing from src. -/
def valuationSignalAdjustment : Option ValSignal → ℚ
  | some ValSignal.favorable => 1 / 200
  | some ValSignal.cautious => -(1 / 100)
  | _ => 0

/-- Modelled from the spec: the InputAdjuster sums the two independent
    adjustments onto the raw expected return when the view-blending flag is
    on, and passes the input through unchanged when it is off (spec 4.1);
    the backend source is missing from src. -/
def adjustExpectedReturn (useViews : Bool) (raw : ℚ)
    (stance : Option Stance) (signal : Option ValSignal) : ℚ :=
  if useViews then
    raw + institutionalViewAdjustment stance + valuationSignalAdjustment signal
  else raw

/- ## Suspicious expected-return flagging (backend, absent from src) -/

/-- An expected return as surfaced to the caller, with the suspicious marker
    and explanatory text (frontend/src/types, `ExpectedReturn` with
    `isSuspicious` and `warningMessage`). -/
structure FlaggedReturn where
  region : String
  value : ℚ
  isSuspicious : Bool
  warningMessage : String
deriving DecidableEq, Repr

/-- Lower edge of the sanity band: -5 percent (spec 4.1 default band). -/
def sanityBandMin : ℚ := -(5 / 100)

/-- Upper edge of the sanity band: +15 percent (spec 4.1 default band). -/
def sanityBandMax : ℚ := 15 / 100

/-- Modelled from the spec: the InputAdjuster validation — an expected return
    outside the sanity band is flagged, not clamped and not rejected, and is
    returned with a suspicious marker and explanatory text (spec 4.1); the
    backend source is missing from src. -/
def checkExpectedReturn (region : String) (r : ℚ) : FlaggedReturn :=
  if r < sanityBandMin ∨ sanityBandMax < r then
    { region := region
      value := r
      isSuspicious := true
      warningMessage := "expected return outside the sanity band of -5 percent to +15 percent" }
  else
    { region := region, value := r, isSuspicious := false, warningMessage := "" }

/-- The caller's resolution of a suspicious flag: confirm, reject (re-fetch),
    or override with a manual value (spec 4.1 and the SuspiciousValuesModal
    actions). -/
inductive CallerDecision
  | confirm
  | reject
  | override (newValue : ℚ)
deriving DecidableEq, Repr

/-- Modelled from the spec: the two-phase compute-and-flag protocol — the
    Optimizer may run only when no return is flagged suspicious or after the
    caller has resolved the flags (spec 4.1 and 9); the backend source is
    missing from src. -/
def optimizerMayRun (flagged : List FlaggedReturn) (decision : Option CallerDecision) : Bool :=
  if flagged.any (fun f => f.isSuspicious) then decision.isSome else true

/- ## Helper lemmas -/

/-- Helper: `markStepComplete` preserves duplicate-freedom of the step list. -/
theorem markStepComplete_nodup (step : WorkflowStep) (s : AppState)
    (h : s.completedSteps.Nodup) : (markStepComplete step s).completedSteps.Nodup := by
  unfold markStepComplete
  by_cases hmem : step ∈ s.completedSteps
  · simpa [hmem] using h
  · simp only [hmem, if_false]
    simpa [List.nodup_append] using ⟨h, hmem⟩

/-- Helper: replaying any sequence of `markStepComplete` calls keeps
    `completedSteps` duplicate-free. -/
theorem foldl_markStepComplete_nodup (steps : List WorkflowStep) (s : AppState)
    (h : s.completedSteps.Nodup) :
    ((steps.foldl (fun st sp => markStepComplete sp st) s).completedSteps).Nodup := by
  induction steps generalizing s with
  | nil => simpa using h
  | cons a t ih =>
      simp only [List.foldl_cons]
      exact ih _ (markStepComplete_nodup a s h)

/-- Helper: list sum of a map by a constant right factor. -/
theorem sum_map_mul_const {α : Type} (l : List α) (f : α → ℚ) (c : ℚ) :
    (l.map fun x => f x * c).sum = (l.map f).sum * c := by
  induction l with
  | nil => simp
  | cons a t ih => simp [ih, add_mul]

/- ## C10 — workflow store idempotence and duplicate-freedom -/

/-- C10: `markStepComplete` appends the step only when it is not already
    present; on an already-completed step the store state is unchanged
    (idempotence), and `completedSteps` never acquires duplicates — it is
    duplicate-free after any call sequence from the initial state. -/
theorem markStepComplete_correct (step : WorkflowStep) (s : AppState) :
    (step ∉ s.completedSteps →
      (markStepComplete step s).completedSteps = s.completedSteps ++ [step])
    ∧ (step ∈ s.completedSteps → markStepComplete step s = s)
    ∧ (s.completedSteps.Nodup → (markStepComplete step s).completedSteps.Nodup)
    ∧ markStepComplete step (markStepComplete step s) = markStepComplete step s
    ∧ ∀ steps : List WorkflowStep,
        ((steps.foldl (fun st sp => markStepComplete sp st) initialAppState).completedSteps).Nodup := by
  refine ⟨fun h => by simp [markStepComplete, h], fun h => ?_,
    markStepComplete_nodup step s, ?_, fun steps => ?_⟩
  · cases s
    simp [markStepComplete, h]
  · by_cases hmem : step ∈ s.completedSteps
    · simp [markStepComplete, hmem]
    · simp [markStepComplete, hmem]
  · exact foldl_markStepComplete_nodup steps initialAppState (by simp [initialAppState])

/-- Witness for C10 at a concrete store state: marking the already-completed
    bonds step leaves the state unchanged. -/
theorem markStepComplete_correct_witness :
    markStepComplete WorkflowStep.bonds
        { completedSteps := [WorkflowStep.bonds], contributionAmount := 1000 }
      = { completedSteps := [WorkflowStep.bonds], contributionAmount := 1000 } :=
  (markStepComplete_correct WorkflowStep.bonds
      { completedSteps := [WorkflowStep.bonds], contributionAmount := 1000 }).2.1
    (by simp)

/- ## C8 — portfolio percentages recomputed from values -/

/-- C8: `handleSubmit` recomputes every holding's percentage as
    `100 * valueEur / total`, ignoring the caller-supplied percentage field
    (changing the input percentages cannot change the output), sets every
    percentage to 0 when the total value is 0, and when the total is positive
    the recomputed percentages sum to 100. -/
theorem submitPortfolio_recomputes_percentages (holdings : List Holding) :
    (∀ g : Holding → ℚ,
        ((submitPortfolio (holdings.map fun h => { h with percentage := g h })).1.map
            Holding.percentage)
          = ((submitPortfolio holdings).1.map Holding.percentage))
    ∧ (totalValueOf holdings = 0 →
        ∀ h ∈ (submitPortfolio holdings).1, h.percentage = 0)
    ∧ (0 < totalValueOf holdings →
        ((submitPortfolio holdings).1.map Holding.percentage).sum = 100) := by
  refine ⟨fun g => ?_, fun h0 h hmem => ?_, fun hpos => ?_⟩
  · simp [submitPortfolio, totalValueOf, List.map_map, Function.comp_def]
  · simp only [submitPortfolio, List.mem_map] at hmem
    obtain ⟨a, _, rfl⟩ := hmem
    simp [h0]
  · have hne : totalValueOf holdings ≠ 0 := ne_of_gt hpos
    simp only [submitPortfolio, List.map_map, Function.comp_def, if_pos hpos]
    have hcongr :
        (holdings.map fun h => h.valueEur / totalValueOf holdings * 100)
          = holdings.map fun h => h.valueEur * (100 / totalValueOf holdings) := by
      refine List.map_congr_left fun a _ => ?_
      ring
    rw [hcongr, sum_map_mul_const holdings Holding.valueEur (100 / totalValueOf holdings)]
    rw [show (holdings.map Holding.valueEur).sum = totalValueOf holdings from rfl]
    field_simp

/-- Witness for C8 at two concrete holdings: the recomputed percentages sum
    to 100. -/
theorem submitPortfolio_recomputes_percentages_witness :
    ((submitPortfolio
        [{ ticker := "CSPX", valueEur := 150, percentage := 7 },
         { ticker := "4GLD", valueEur := 50, percentage := 11 }]).1.map
      Holding.percentage).sum = 100 :=
  (submitPortfolio_recomputes_percentages _).2.2 (by norm_num [totalValueOf])

/- ## C9 — bonds versus risky summary -/

/-- C9: in the ResultsPage summary the target risky percentage is
    `min(100, 100 / γ)` for every nonzero CRRA γ, the two targets always sum
    to exactly 100, and whenever the total portfolio value (bonds EUR plus ETF
    value) is positive the bonds gap and the risky gap cancel exactly. -/
theorem bondsRiskySummary_correct (crra : ℚ) (hc : crra ≠ 0)
    (bondAmountPln : Option ℚ) (eurPlnRate etfValue : ℚ) :
    targetRiskyPct crra = min 100 (100 / crra)
    ∧ targetBondsPct crra + targetRiskyPct crra = 100
    ∧ (0 < bondsEurValue bondAmountPln eurPlnRate + etfValue →
        bondsGap crra (bondsEurValue bondAmountPln eurPlnRate) etfValue
          + riskyGap crra (bondsEurValue bondAmountPln eurPlnRate) etfValue = 0) := by
  refine ⟨?_, by simp [targetBondsPct], fun hpos => ?_⟩
  · simp only [targetRiskyPct, hc, if_false]
    congr 1
    rw [one_div, inv_mul_eq_div]
  · set b := bondsEurValue bondAmountPln eurPlnRate with hb
    have hne : b + etfValue ≠ 0 := ne_of_gt hpos
    have hcur : currentBondsPct b etfValue + currentRiskyPct b etfValue = 100 := by
      simp only [currentBondsPct, currentRiskyPct, if_pos hpos]
      field_simp
      ring
    simp only [bondsGap, riskyGap, targetBondsPct]
    linarith

/-- Witness for C9 at γ = 2, a 425 PLN bond position at rate 4.25 (100 EUR)
    and 100 EUR of ETFs. -/
theorem bondsRiskySummary_correct_witness :
    targetRiskyPct 2 = min 100 (100 / 2)
    ∧ targetBondsPct 2 + targetRiskyPct 2 = 100
    ∧ bondsGap 2 (bondsEurValue (some 425) (17 / 4)) 100
        + riskyGap 2 (bondsEurValue (some 425) (17 / 4)) 100 = 0 := by
  have h := bondsRiskySummary_correct 2 (by norm_num) (some 425) (17 / 4) 100
  exact ⟨h.1, h.2.1, h.2.2 (by norm_num [bondsEurValue])⟩

/- ## C5 — Sharpe ratio zero-volatility guard -/

/-- C5: the statistics computation returns the sentinel "undefined" for the
    Sharpe ratio when the portfolio volatility is 0, and otherwise the value
    `(portfolioReturn - riskFreeRate) / portfolioVolatility`. -/
theorem computeSharpe_guard (n : ℕ) (mu w : Fin n → ℚ) (riskFree vol : ℚ) :
    (vol = 0 →
      computeSharpe (portfolioReturn n mu w) riskFree vol = SharpeResult.undefined)
    ∧ (vol ≠ 0 →
      computeSharpe (portfolioReturn n mu w) riskFree vol
        = SharpeResult.value ((portfolioReturn n mu w - riskFree) / vol)) := by
  constructor <;> intro h <;> simp [computeSharpe, h]

/-- Witness for C5 at a concrete two-asset portfolio: volatility 0 yields the
    sentinel, volatility 18 percent yields the quotient. -/
theorem computeSharpe_guard_witness :
    computeSharpe (portfolioReturn 2 (fun _ => 8 / 100) (fun _ => 1 / 2)) (5 / 200) 0
      = SharpeResult.undefined
    ∧ computeSharpe (portfolioReturn 2 (fun _ => 8 / 100) (fun _ => 1 / 2)) (5 / 200) (18 / 100)
      = SharpeResult.value
          ((portfolioReturn 2 (fun _ => 8 / 100) (fun _ => 1 / 2) - 5 / 200) / (18 / 100)) :=
  ⟨(computeSharpe_guard 2 (fun _ => 8 / 100) (fun _ => 1 / 2) (5 / 200) 0).1 rfl,
   (computeSharpe_guard 2 (fun _ => 8 / 100) (fun _ => 1 / 2) (5 / 200) (18 / 100)).2
     (by norm_num)⟩

/- ## C6 — view-blending adjustments -/

/-- C6: with view blending on, the adjusted return is the raw return plus the
    stance adjustment (+1.0pp overweight, -1.0pp underweight, 0 neutral or
    absent) plus the valuation adjustment (+0.5pp favorable, -1.0pp cautious,
    0 neutral or absent), summed independently; with the flag off, the return
    passes through unchanged. -/
theorem viewBlending_adjustments (raw : ℚ) (stance : Option Stance)
    (signal : Option ValSignal) :
    adjustExpectedReturn false raw stance signal = raw
    ∧ adjustExpectedReturn true raw stance signal
        = raw + institutionalViewAdjustment stance + valuationSignalAdjustment signal
    ∧ institutionalViewAdjustment (some Stance.overweight) = 1 / 100
    ∧ institutionalViewAdjustment (some Stance.underweight) = -(1 / 100)
    ∧ institutionalViewAdjustment (some Stance.neutral) = 0
    ∧ institutionalViewAdjustment none = 0
    ∧ valuationSignalAdjustment (some ValSignal.favorable) = 1 / 200
    ∧ valuationSignalAdjustment (some ValSignal.cautious) = -(1 / 100)
    ∧ valuationSignalAdjustment (some ValSignal.neutral) = 0
    ∧ valuationSignalAdjustment none = 0 := by
  refine ⟨rfl, rfl, rfl, rfl, rfl, rfl, rfl, rfl, rfl, rfl⟩

/- ## C7 — suspicious expected returns flagged, not clamped -/

/-- C7: an expected return outside the sanity band of -5 to +15 percent is
    returned unchanged (neither clamped nor rejected) with the suspicious
    marker set and a nonempty explanatory text, and the optimizer gate is
    closed until the caller supplies a decision (confirm, reject, or
    override), after which it opens. -/
theorem suspiciousReturn_flagged (region : String) (r : ℚ)
    (h : r < sanityBandMin ∨ sanityBandMax < r) :
    (checkExpectedReturn region r).value = r
    ∧ (checkExpectedReturn region r).isSuspicious = true
    ∧ (checkExpectedReturn region r).warningMessage ≠ ""
    ∧ optimizerMayRun [checkExpectedReturn region r] none = false
    ∧ ∀ d : CallerDecision,
        optimizerMayRun [checkExpectedReturn region r] (some d) = true := by
  refine ⟨?_, ?_, ?_, ?_, fun d => ?_⟩ <;>
    simp [checkExpectedReturn, if_pos h, optimizerMayRun]

/-- Witness for C7 at a +20 percent expected return for the US region. -/
theorem suspiciousReturn_flagged_witness :
    (checkExpectedReturn "US" (20 / 100)).value = 20 / 100
    ∧ (checkExpectedReturn "US" (20 / 100)).isSuspicious = true
    ∧ (checkExpectedReturn "US" (20 / 100)).warningMessage ≠ ""
    ∧ optimizerMayRun [checkExpectedReturn "US" (20 / 100)] none = false
    ∧ ∀ d : CallerDecision,
        optimizerMayRun [checkExpectedReturn "US" (20 / 100)] (some d) = true :=
  suspiciousReturn_flagged "US" (20 / 100)
    (Or.inr (by norm_num [sanityBandMax]))

/- ## C4 — rebalance check -/

/-- Helper: every list element is bounded by the max-fold with base 0. -/
theorem le_foldr_max (l : List ℚ) (x : ℚ) (hx : x ∈ l) : x ≤ l.foldr max 0 := by
  induction l with
  | nil => simp at hx
  | cons a t ih =>
      rcases List.mem_cons.mp hx with rfl | hmem
      · exact le_max_left _ _
      · exact le_trans (ih hmem) (le_max_right _ _)

/-- Helper: for a nonempty list of nonnegative rationals, the max-fold with
    base 0 is attained by some element. -/
theorem foldr_max_mem (l : List ℚ) (hne : l ≠ []) (hnn : ∀ x ∈ l, 0 ≤ x) :
    l.foldr max 0 ∈ l := by
  induction l with
  | nil => exact absurd rfl hne
  | cons a t ih =>
      cases t with
      | nil =>
          simp [max_eq_left (hnn a (by simp))]
      | cons b u =>
          have hmem : (b :: u).foldr max 0 ∈ b :: u :=
            ih (by simp) (fun x hx => hnn x (List.mem_cons_of_mem a hx))
          rw [List.foldr_cons]
          rcases le_total ((b :: u).foldr max 0) a with hab | hab
          · rw [max_eq_left hab]
            exact List.mem_cons_self a _
          · rw [max_eq_right hab]
            exact List.mem_cons_of_mem a hmem

/-- C4: a rebalance is recommended iff some asset class in either map has
    current minus target strictly above the threshold; `maxDeviation` bounds
    every absolute deviation (underweight rows included) and is attained when
    there is any asset class; and the example with a drift of exactly the
    threshold (A at 55 versus 50 with threshold 5) is not flagged. -/
theorem rebalanceCheck_correct (current target : AllocMap) (threshold : ℚ) :
    ((rebalanceCheck current target threshold).isRebalanceRecommended = true
      ↔ ∃ k ∈ unionKeys current target, threshold < deviation current target k)
    ∧ (∀ k ∈ unionKeys current target,
        |deviation current target k|
          ≤ (rebalanceCheck current target threshold).maxDeviation)
    ∧ (unionKeys current target = [] ∨
        ∃ k ∈ unionKeys current target,
          |deviation current target k|
            = (rebalanceCheck current target threshold).maxDeviation)
    ∧ (rebalanceCheck [("A", 55), ("B", 45)] [("A", 50), ("B", 50)]
        5).isRebalanceRecommended = false := by
  refine ⟨?_, fun k hk => ?_, ?_, ?_⟩
  · simp [rebalanceCheck, List.isEmpty_iff, List.filter_eq_nil_iff]
  · exact le_foldr_max _ _ (List.mem_map_of_mem _ hk)
  · by_cases hkeys : unionKeys current target = []
    · exact Or.inl hkeys
    · refine Or.inr ?_
      have hmem :
          ((unionKeys current target).map fun k =>
              |deviation current target k|).foldr max 0
            ∈ (unionKeys current target).map fun k => |deviation current target k| := by
        refine foldr_max_mem _ ?_ ?_
        · simpa using hkeys
        · intro x hx
          obtain ⟨k, _, rfl⟩ := List.mem_map.mp hx
          exact abs_nonneg _
      obtain ⟨k, hk, hkeq⟩ := List.mem_map.mp hmem
      exact ⟨k, hk, hkeq⟩
  · have hkeys :
        unionKeys [("A", (55 : ℚ)), ("B", 45)] [("A", 50), ("B", 50)] = ["A", "B"] := by
      decide
    simp only [rebalanceCheck, hkeys]
    simp only [deviation, lookupOr0, List.filter, List.lookup, String.reduceBEq]
    norm_num

/-- Witness for C4: the absolute deviation of A in the example maps is
    bounded by the reported maximum deviation. -/
theorem rebalanceCheck_correct_witness :
    |deviation [("A", 55), ("B", 45)] [("A", 50), ("B", 50)] "A"|
      ≤ (rebalanceCheck [("A", 55), ("B", 45)] [("A", 50), ("B", 50)] 5).maxDeviation :=
  (rebalanceCheck_correct [("A", 55), ("B", 45)] [("A", 50), ("B", 50)] 5).2.1 "A"
    (by decide)

/- ## C3 — gap analysis rows and priorities -/

/-- Helper: the first priority rule — a gap above 10pp is high. -/
theorem assignPriority_high {g : ℚ} (val : Option ValSignal) (inst : Option Stance)
    (h : 10 < g) : assignPriority g val inst = Priority.high := by
  simp [assignPriority, h]

/-- Helper: the second priority rule — a gap in (3, 10] is medium. -/
theorem assignPriority_medium {g : ℚ} (val : Option ValSignal) (inst : Option Stance)
    (h3 : 3 < g) (h10 : g ≤ 10) : assignPriority g val inst = Priority.medium := by
  have hn : ¬(10 < g) := not_lt.mpr h10
  simp [assignPriority, hn, h3]

/-- Helper: the third priority rule — a positive gap at most 3pp with a
    favorable valuation or an overweight stance is consider. -/
theorem assignPriority_consider {g : ℚ} (val : Option ValSignal) (inst : Option Stance)
    (h0 : 0 < g) (h3 : g ≤ 3)
    (hsig : val = some ValSignal.favorable ∨ inst = some Stance.overweight) :
    assignPriority g val inst = Priority.consider := by
  have h10 : ¬(10 < g) := by intro hc; linarith
  have h3n : ¬(3 < g) := not_lt.mpr h3
  unfold assignPriority
  rw [if_neg h10, if_neg h3n, if_pos ⟨h0, hsig⟩]

/-- Helper: the fourth priority rule — an absolute gap at most 3pp without
    the consider condition is hold. -/
theorem assignPriority_hold {g : ℚ} (val : Option ValSignal) (inst : Option Stance)
    (habs : |g| ≤ 3)
    (hnc : ¬(0 < g ∧ (val = some ValSignal.favorable ∨ inst = some Stance.overweight))) :
    assignPriority g val inst = Priority.hold := by
  have hg3 : g ≤ 3 := (abs_le.mp habs).2
  have h10 : ¬(10 < g) := by intro hc; linarith
  have h3n : ¬(3 < g) := not_lt.mpr hg3
  unfold assignPriority
  rw [if_neg h10, if_neg h3n, if_neg hnc, if_pos habs]

/-- Helper: the final priority rule — a gap below -3pp is skip. -/
theorem assignPriority_skip {g : ℚ} (val : Option ValSignal) (inst : Option Stance)
    (h : g < -3) : assignPriority g val inst = Priority.skip := by
  have h10 : ¬(10 < g) := by intro hc; linarith
  have h3n : ¬(3 < g) := by intro hc; linarith
  have h0n : ¬(0 < g ∧ (val = some ValSignal.favorable ∨ inst = some Stance.overweight)) := by
    intro hc
    linarith [hc.1]
  have habs : ¬(|g| ≤ 3) := by
    rw [abs_of_neg (by linarith : g < 0)]
    intro hc
    linarith
  unfold assignPriority
  rw [if_neg h10, if_neg h3n, if_neg h0n, if_neg habs]

/-- C3 (amended): the gap analysis emits one row per asset-class key present
    in either allocation map, with absent entries defaulted to 0 and
    `gap = target - current` exactly, and the priority follows the ordered
    first-match rules of spec 4.4 — so a gap of exactly +10pp receives
    priority medium (the high rule requires a gap strictly above +10pp). -/
theorem gapAnalysis_rows_correct (current target : AllocMap)
    (vals : List (String × ValSignal)) (insts : List (String × Stance)) :
    ((gapAnalysis current target vals insts).map GapRow.ticker = unionKeys current target)
    ∧ ∀ row ∈ gapAnalysis current target vals insts,
        row.currentPct = lookupOr0 current row.ticker
        ∧ row.targetPct = lookupOr0 target row.ticker
        ∧ row.gap = row.targetPct - row.currentPct
        ∧ (10 < row.gap → row.priority = Priority.high)
        ∧ (3 < row.gap → row.gap ≤ 10 → row.priority = Priority.medium)
        ∧ (0 < row.gap → row.gap ≤ 3 →
            (row.valuationSignal = some ValSignal.favorable
              ∨ row.institutionalStance = some Stance.overweight) →
            row.priority = Priority.consider)
        ∧ (|row.gap| ≤ 3 →
            ¬(0 < row.gap ∧ (row.valuationSignal = some ValSignal.favorable
                ∨ row.institutionalStance = some Stance.overweight)) →
            row.priority = Priority.hold)
        ∧ (row.gap < -3 → row.priority = Priority.skip) := by
  constructor
  · simp [gapAnalysis, List.map_map, Function.comp_def]
  · intro row hrow
    simp only [gapAnalysis, List.mem_map] at hrow
    obtain ⟨k, hk, rfl⟩ := hrow
    dsimp only
    refine ⟨rfl, rfl, rfl, fun h => assignPriority_high _ _ h,
      fun h3 h10 => assignPriority_medium _ _ h3 h10,
      fun h0 h3 hsig => assignPriority_consider _ _ h0 h3 hsig,
      fun habs hnc => assignPriority_hold _ _ habs hnc,
      fun h => assignPriority_skip _ _ h⟩

/-- Helper: full evaluation of the gap analysis at the spec's example
    scenario (current US 60 and Gold 5, target US 40 and Gold 15). -/
theorem gapAnalysis_example_eval :
    gapAnalysis [("US", 60), ("Gold", 5)] [("US", 40), ("Gold", 15)] [] []
      = [{ ticker := "US", currentPct := 60, targetPct := 40, gap := -20,
           priority := Priority.skip, valuationSignal := none,
           institutionalStance := none },
         { ticker := "Gold", currentPct := 5, targetPct := 15, gap := 10,
           priority := Priority.medium, valuationSignal := none,
           institutionalStance := none }] := by
  have hkeys :
      unionKeys [("US", (60 : ℚ)), ("Gold", 5)] [("US", 40), ("Gold", 15)]
        = ["US", "Gold"] := by decide
  have hUS : assignPriority (40 - 60 : ℚ) none none = Priority.skip :=
    assignPriority_skip none none (by norm_num)
  have hGold : assignPriority (15 - 5 : ℚ) none none = Priority.medium :=
    assignPriority_medium none none (by norm_num) (by norm_num)
  simp only [gapAnalysis, hkeys, List.map]
  simp only [lookupOr0, List.lookup, String.reduceBEq]
  rw [hUS, hGold]
  norm_num

/-- Counterexample for C3: at the spec's own example (current Gold 5, target
    Gold 15, gap exactly +10pp) the first-match rules assign priority medium,
    not high, because the high rule requires a gap strictly above +10pp. -/
theorem gapAnalysis_gold_counterexample :
    ((gapAnalysis [("US", 60), ("Gold", 5)] [("US", 40), ("Gold", 15)] [] []).map
        fun r => (r.ticker, r.gap, r.priority))
      = [("US", -20, Priority.skip), ("Gold", 10, Priority.medium)]
    ∧ Priority.medium ≠ Priority.high := by
  rw [gapAnalysis_example_eval]
  exact ⟨rfl, by decide⟩

/-- Witness for C3 at the Gold row of the example scenario: its gap of
    exactly +10pp falls under the medium rule. -/
theorem gapAnalysis_rows_correct_witness :
    ({ ticker := "Gold", currentPct := 5, targetPct := 15, gap := 10,
       priority := Priority.medium, valuationSignal := none,
       institutionalStance := none } : GapRow).priority = Priority.medium := by
  have hmem :
      ({ ticker := "Gold", currentPct := 5, targetPct := 15, gap := 10,
         priority := Priority.medium, valuationSignal := none,
         institutionalStance := none } : GapRow)
        ∈ gapAnalysis [("US", 60), ("Gold", 5)] [("US", 40), ("Gold", 15)] [] [] := by
    rw [gapAnalysis_example_eval]
    simp
  have h :=
    (gapAnalysis_rows_correct [("US", 60), ("Gold", 5)] [("US", 40), ("Gold", 15)] [] []).2
      _ hmem
  exact h.2.2.2.2.1 (by norm_num) (by norm_num)

/- ## C2 — contribution allocator -/

/-- Helper: a nonempty list of positive rationals has positive sum. -/
theorem sum_pos_of_pos (l : List ℚ) (hne : l ≠ []) (hpos : ∀ x ∈ l, 0 < x) :
    0 < l.sum := by
  induction l with
  | nil => exact absurd rfl hne
  | cons a t ih =>
      cases t with
      | nil => simpa using hpos a (by simp)
      | cons b u =>
          have h1 := hpos a (by simp)
          have h2 := ih (by simp) (fun x hx => hpos x (List.mem_cons_of_mem a hx))
          simp only [List.sum_cons] at h2 ⊢
          linarith

/-- Helper: list sums distribute over pointwise addition of two maps. -/
theorem sum_map_add {α : Type} (l : List α) (f g : α → ℚ) :
    (l.map fun x => f x + g x).sum = (l.map f).sum + (l.map g).sum := by
  induction l with
  | nil => simp
  | cons a t ih =>
      simp only [List.map_cons, List.sum_cons, ih]
      ring

/-- Helper: membership in the allocator's eligible rows is membership in the
    input rows with a positive gap (the ordering is a permutation). -/
theorem mem_eligibleRows {rows : List GapRow} {r : GapRow} :
    r ∈ eligibleRows rows ↔ r ∈ rows ∧ 0 < r.gap := by
  unfold eligibleRows
  rw [List.Perm.mem_iff (List.perm_insertionSort _ _)]
  simp [List.mem_filter]

/-- Helper: with at least one eligible row the total gap is positive. -/
theorem totalGapOf_pos (rows : List GapRow) (hne : eligibleRows rows ≠ []) :
    0 < totalGapOf rows := by
  unfold totalGapOf
  apply sum_pos_of_pos
  · simpa using hne
  · intro x hx
    obtain ⟨r, hr, rfl⟩ := List.mem_map.mp hx
    exact (mem_eligibleRows.mp hr).2

/-- C2: for a positive contribution, the allocator reconciles exactly — the
    recommended amounts plus the unallocated remainder equal the contribution
    (so certainly within 0.01 EUR) — every recommended amount is 0 or at
    least the minimum allocation, and every recommendation comes from a
    positive-gap input row whose amount is either its exact single-pass
    proportional share or 0, the latter forced whenever the proportional
    share is below the minimum (zeroed into the pool, never redistributed). -/
theorem allocate_correct (contribution currentValue minAllocation : ℚ)
    (rows : List GapRow) (hC : 0 < contribution) :
    (((allocate contribution currentValue minAllocation rows).recommendations.map
        AllocRec.amountEur).sum
      + (allocate contribution currentValue minAllocation rows).unallocated
      = contribution)
    ∧ (∀ rec ∈ (allocate contribution currentValue minAllocation rows).recommendations,
        rec.amountEur = 0 ∨ minAllocation ≤ rec.amountEur)
    ∧ (∀ rec ∈ (allocate contribution currentValue minAllocation rows).recommendations,
        ∃ r ∈ rows, 0 < r.gap ∧ rec.ticker = r.ticker
          ∧ (rec.amountEur = 0
              ∨ rec.amountEur = r.gap / totalGapOf rows * contribution)
          ∧ (r.gap / totalGapOf rows * contribution < minAllocation →
              rec.amountEur = 0)) := by
  by_cases hE : (eligibleRows rows).isEmpty = true
  · unfold allocate
    rw [if_pos hE]
    refine ⟨by simp, by simp, by simp⟩
  · have hne : eligibleRows rows ≠ [] := by
      simpa [List.isEmpty_iff] using hE
    have hT : 0 < totalGapOf rows := totalGapOf_pos rows hne
    have hTne : totalGapOf rows ≠ 0 := ne_of_gt hT
    unfold allocate
    rw [if_neg hE]
    refine ⟨?_, ?_, ?_⟩
    · simp only [List.map_map, Function.comp_def]
      rw [← sum_map_add]
      have hsplit :
          ((eligibleRows rows).map fun r =>
              (if r.gap / totalGapOf rows * contribution < minAllocation then 0
                else r.gap / totalGapOf rows * contribution)
              + (if r.gap / totalGapOf rows * contribution < minAllocation then
                  r.gap / totalGapOf rows * contribution else 0))
            = (eligibleRows rows).map fun r =>
                r.gap / totalGapOf rows * contribution := by
        refine List.map_congr_left fun r _ => ?_
        by_cases h : r.gap / totalGapOf rows * contribution < minAllocation
        · simp [h]
        · simp [h]
      rw [hsplit]
      have hfactor :
          ((eligibleRows rows).map fun r =>
              r.gap / totalGapOf rows * contribution)
            = (eligibleRows rows).map fun r =>
                r.gap * (contribution / totalGapOf rows) := by
        refine List.map_congr_left fun r _ => ?_
        ring
      rw [hfactor, sum_map_mul_const _ GapRow.gap (contribution / totalGapOf rows)]
      rw [show ((eligibleRows rows).map GapRow.gap).sum = totalGapOf rows from rfl]
      field_simp
    · intro rec hrec
      simp only [List.mem_map] at hrec
      obtain ⟨r, hr, rfl⟩ := hrec
      dsimp only
      by_cases h : r.gap / totalGapOf rows * contribution < minAllocation
      · exact Or.inl (by simp [h])
      · refine Or.inr ?_
        simpa [h] using not_lt.mp h
    · intro rec hrec
      simp only [List.mem_map] at hrec
      obtain ⟨r, hr, rfl⟩ := hrec
      obtain ⟨hrows, hgap⟩ := mem_eligibleRows.mp hr
      refine ⟨r, hrows, hgap, rfl, ?_, fun hlt => by simp [hlt]⟩
      by_cases h : r.gap / totalGapOf rows * contribution < minAllocation
      · exact Or.inl (by simp [h])
      · exact Or.inr (by simp [h])

/-- Witness for C2 at the spec's allocation scenario: contribution 1000, one
    eligible row with gap +20, minimum 500 — the amounts plus the unallocated
    remainder reconcile to 1000. -/
theorem allocate_correct_witness :
    ((allocate 1000 10000 500
        [{ ticker := "EM", currentPct := 10, targetPct := 30, gap := 20,
           priority := Priority.high, valuationSignal := none,
           institutionalStance := none }]).recommendations.map
      AllocRec.amountEur).sum
      + (allocate 1000 10000 500
          [{ ticker := "EM", currentPct := 10, targetPct := 30, gap := 20,
             priority := Priority.high, valuationSignal := none,
             institutionalStance := none }]).unallocated
      = 1000 :=
  (allocate_correct 1000 10000 500
    [{ ticker := "EM", currentPct := 10, targetPct := 30, gap := 20,
       priority := Priority.high, valuationSignal := none,
       institutionalStance := none }] (by norm_num)).1

/- ## C1 — optimizer output guarantee -/

/-- C1: any converged optimizer output is feasible and beats the equal-weight
    oracle — the weights sum to 1 (so certainly within the 1e-6 tolerance),
    every weight lies in [0, wMax], and the achieved objective
    `μᵗw - (γ/2)·wᵗΣw` is at least that of the equal-weight portfolio,
    whenever the equal-weight portfolio itself satisfies the concentration
    cap (as with the default wMax = 0.5 and at least two assets). -/
theorem optimize_outputGuarantee (n : ℕ) (mu : Fin n → ℚ) (cov : Fin n → Fin n → ℚ)
    (gamma wMax : ℚ) (w : Fin n → ℚ)
    (hopt : IsOptimalWeights n mu cov gamma wMax w)
    (hn : 0 < n) (hmax : 1 / (n : ℚ) ≤ wMax) :
    |(∑ i, w i) - 1| ≤ 1 / 1000000
    ∧ (∀ i, 0 ≤ w i ∧ w i ≤ wMax)
    ∧ objectiveFn n mu cov gamma (equalWeights n) ≤ objectiveFn n mu cov gamma w := by
  obtain ⟨⟨hsum, hbox⟩, hbest⟩ := hopt
  have hn' : ((n : ℚ)) ≠ 0 := Nat.cast_ne_zero.mpr hn.ne'
  refine ⟨by rw [hsum]; norm_num, hbox, ?_⟩
  apply hbest
  refine ⟨?_, fun i => ⟨by simp only [equalWeights]; positivity,
    by simpa only [equalWeights] using hmax⟩⟩
  simp only [equalWeights, Finset.sum_const, Finset.card_univ, Fintype.card_fin,
    nsmul_eq_mul]
  field_simp

/-- Witness for C1 at a concrete two-asset problem (zero returns, identity
    correlations, γ = 2, wMax = 0.5) whose optimum is the 50/50 portfolio. -/
theorem optimize_outputGuarantee_witness :
    |(∑ i, (fun _ : Fin 2 => (1 : ℚ) / 2) i) - 1| ≤ 1 / 1000000
    ∧ (∀ i : Fin 2, 0 ≤ (fun _ : Fin 2 => (1 : ℚ) / 2) i
        ∧ (fun _ : Fin 2 => (1 : ℚ) / 2) i ≤ 1 / 2)
    ∧ objectiveFn 2 (fun _ => 0) (fun i j => if i = j then 1 else 0) 2 (equalWeights 2)
        ≤ objectiveFn 2 (fun _ => 0) (fun i j => if i = j then 1 else 0) 2
            (fun _ => 1 / 2) := by
  apply optimize_outputGuarantee 2 (fun _ => 0) (fun i j => if i = j then 1 else 0) 2
      (1 / 2) (fun _ => 1 / 2) ?_ (by norm_num) (by norm_num)
  constructor
  · refine ⟨?_, fun i => by norm_num⟩
    rw [Fin.sum_univ_two]
    norm_num
  · intro v hv
    obtain ⟨hsum, hbox⟩ := hv
    rw [Fin.sum_univ_two] at hsum
    simp only [objectiveFn, portfolioReturn, portfolioVariance, Fin.sum_univ_two]
    norm_num
    nlinarith [sq_nonneg (v 0 - v 1), hsum]
